import Mathlib

/-!
Shallow embedding of the PDF image extraction / reconstruction core of the
Image-PDF-Optimisation repository.

Extraction side (function `extractEmbeddedImages` in the pdf processing
module): the per-page operator scan is modelled as a step function
`scanStep` over a `ScanState`, driven by a read-only `PageEnv` that stands
for the rendered page (its object table, viewport scale/height and the
canvas-encoding results, which are opaque strings produced by the
environment since canvas rendering itself is outside the embedding).
Raster payloads (`dataURL` fields) are opaque strings; the byte-size
estimate field (`originalSize`) of the JS record is omitted because it is
a pure function of the payload string and no claim touches it.

Reconstruction side (the save-button handler in editor.js): the matching
loop is `buildReplacements`, the per-replacement patching loop is
`patchOne` / `applyReplacements` over a `PdfDocX` object graph.
JavaScript exceptions thrown by the byte-decoding fetch and by the
pdf-lib embedPng call are modelled as `none` results of the corresponding
`PatchEnv` fields; the surrounding try/catch blocks become the `none`
branches of the Lean definitions.
-/

/-- Mat is a 6-element 2D affine matrix (a, b, c, d, e, f), the element
type of the transform stack kept by the operator scan. -/
structure TMat where
  a : ℚ
  b : ℚ
  c : ℚ
  d : ℚ
  e : ℚ
  f : ℚ
deriving DecidableEq

/-- Identity matrix: the initial transform stack entry. -/
def idMat : TMat := ⟨1, 0, 0, 1, 0, 0⟩

/-- Multiplication of the incoming transform operator argument `inc` onto
the current top-of-stack matrix `cur`, exactly as written in the
OPS.transform branch of the scan loop. -/
def applyMat (cur inc : TMat) : TMat :=
  ⟨inc.a * cur.a + inc.b * cur.c,
   inc.a * cur.b + inc.b * cur.d,
   inc.c * cur.a + inc.d * cur.c,
   inc.c * cur.b + inc.d * cur.d,
   inc.e * cur.a + inc.f * cur.c + cur.e,
   inc.e * cur.b + inc.f * cur.d + cur.f⟩

/-- NameArg models the JavaScript value found in an operator argument slot
that is expected to hold an object name: null/undefined, a string, an
object exposing a truthy-or-empty `name` property, or an object without
one. -/
inductive NameArg where
  | jsNull
  | str (s : String)
  | objWithName (s : String)
  | objNoName
deriving DecidableEq

/-- JavaScript truthiness of a NameArg: null and the empty string are
falsy, every object is truthy. -/
def truthy : NameArg → Bool
  | .jsNull => false
  | .str s => !s.isEmpty
  | .objWithName _ => true
  | .objNoName => true

/-- Validity check on a resolved name, mirroring
`!actualImageName || (typeof actualImageName !== 'string' && !actualImageName.name)`
(skip when that condition holds): a name passes iff it is a non-empty
string or an object whose `name` property is truthy. -/
def validName : NameArg → Bool
  | .str s => !s.isEmpty
  | .objWithName s => !s.isEmpty
  | _ => false

/-- String coercion of a NameArg as done by a JS template literal. -/
def jsNameString : NameArg → String
  | .jsNull => "null"
  | .str s => s
  | .objWithName _ => "[object Object]"
  | .objNoName => "[object Object]"

/-- ClipBounds is the axis-aligned bounding box stored by the
constructPath branch and consumed by shadingFill. -/
structure ClipBounds where
  minX : ℚ
  minY : ℚ
  maxX : ℚ
  maxY : ℚ
deriving DecidableEq

/-- Accumulator of the constructPath min/max loop. `none` stands for the
JavaScript initial values Infinity / minus Infinity. -/
structure BoundsAcc where
  minX : Option ℚ
  minY : Option ℚ
  maxX : Option ℚ
  maxY : Option ℚ

/-- Update for a running minimum. A `none` candidate models reading an
undefined array slot, whose comparison is always false in JS. -/
def updMin : Option ℚ → Option ℚ → Option ℚ
  | none, m => m
  | some x, none => some x
  | some x, some m => if x < m then some x else some m

/-- Update for a running maximum, symmetric to `updMin`. -/
def updMax : Option ℚ → Option ℚ → Option ℚ
  | none, m => m
  | some x, none => some x
  | some x, some m => if m < x then some x else some m

/-- The `for (let j = 0; j < pathData.length; j += 2)` min/max loop of the
constructPath branch, reading x at j and y at j + 1 (possibly undefined
when the list length is odd). -/
def boundsLoop (data : List ℚ) (j : ℕ) (acc : BoundsAcc) : BoundsAcc :=
  if h : j < data.length then
    boundsLoop data (j + 2)
      ⟨updMin (data.get? j) acc.minX, updMin (data.get? (j + 1)) acc.minY,
       updMax (data.get? j) acc.maxX, updMax (data.get? (j + 1)) acc.maxY⟩
  else acc
termination_by data.length - j
decreasing_by omega

/-- Bounding box of a path data array. The caller only invokes this under
the `pathData.length >= 4` guard, in which case the first loop iteration
already makes every accumulator field present; `getD 0` merely totalizes
the unreachable absent case. -/
def pathBBox (data : List ℚ) : ClipBounds :=
  let acc := boundsLoop data 0 ⟨none, none, none, none⟩
  ⟨acc.minX.getD 0, acc.minY.getD 0, acc.maxX.getD 0, acc.maxY.getD 0⟩

/-- PageObj is an entry of the page object table (`page.objs`): it may
carry a decoded bitmap (with its pixel width and height) and may carry a
dictionary BBox entry. -/
structure PageObj where
  bitmap : Option (ℕ × ℕ)
  dictBBox : Option (List ℚ)
deriving DecidableEq

/-- ExtractedImage is the record pushed onto `allImages` for every
successful extraction. The JS `originalSize` field (a pure function of
`dataURL`) is omitted. -/
structure ExtractedImage where
  index : ℕ
  dataURL : String
  width : ℚ
  height : ℚ
  pageNum : ℕ
  imageName : String
  isOptimized : Bool
  optimizedDataURL : Option String
deriving DecidableEq

/-- PageEnv is the read-only per-page context of one scan: page number,
viewport scale and height, the loaded object table, and the opaque
canvas-encoding results (PNG dataURL of a drawn object bitmap, and PNG
dataURL of a rectangular crop of the full-page render). -/
structure PageEnv where
  pageNum : ℕ
  scale : ℚ
  viewportHeight : ℚ
  objs : NameArg → Option PageObj
  objPNG : NameArg → String
  renderCrop : ℚ → ℚ → ℚ → ℚ → String

/-- ScanState is the mutable state of the per-page operator loop. The
head of `transformStack` is the top of the JS array stack; the JS
variable `currentTransform` is kept equal in value to that top at every
step, so it is represented by the head. -/
structure ScanState where
  transformStack : List TMat
  clippingStack : List (Option ClipBounds)
  currentClipBounds : Option ClipBounds
  lastDependencyName : NameArg
  extractedObjects : List NameArg
  shadingIndex : ℕ
  imageIndex : ℕ
  images : List ExtractedImage
deriving DecidableEq

/-- Current transform: the top of the stack. The default for an empty
stack is unreachable from the initial state. -/
def currentTransform (s : ScanState) : TMat := s.transformStack.headD idMat

/-- Initial scan state of one page: identity transform frame, empty clip
side-stack, no current clip bounds, no last dependency, nothing extracted. -/
def initScanState : ScanState :=
  ⟨[idMat], [], none, .jsNull, [], 0, 0, []⟩

/-- PdfOp is the subset of operator shapes the scan loop dispatches on;
`other` stands for every opcode the loop ignores. For
paintFormXObjectBegin the constructor argument is args[1] (the name slot);
args[0] of that operator (a matrix) is never read by this code. -/
inductive PdfOp where
  | dependency (name : NameArg)
  | save
  | restore
  | transform (m : TMat)
  | constructPath (pathData : Option (List ℚ))
  | clip
  | shadingFill
  | paintImageXObject (name : NameArg)
  | paintInlineImageXObject (name : NameArg)
  | paintFormXObjectBegin (name1 : NameArg)
  | other
deriving DecidableEq

/-- Width/height taken from the form object BBox under the
`bbox && bbox.length >= 4` guard, with the documented 100 by 100 default. -/
def formBBoxDims (obj : PageObj) : ℚ × ℚ :=
  match obj.dictBBox with
  | some bbox =>
      if 4 ≤ bbox.length then
        (|bbox.getD 2 0 - bbox.getD 0 0|, |bbox.getD 3 0 - bbox.getD 1 0|)
      else (100, 100)
  | none => (100, 100)

/-- Handling of one paint operator (paintImageXObject,
paintInlineImageXObject or paintFormXObjectBegin) after its name argument
has been resolved, translating the body of the image-operation `if` of
the scan loop. Every caught exception path of the JS (missing object,
inner form failure) is a skip, returning the state unchanged. -/
def paintOp (env : PageEnv) (s : ScanState) (isForm : Bool) (actual : NameArg) : ScanState :=
  if validName actual = false then s
  else if actual ∈ s.extractedObjects then s
  else
    match env.objs actual with
    | none => s
    | some obj =>
      match obj.bitmap with
      | some wh =>
          { s with
            images := s.images ++
              [⟨s.imageIndex, env.objPNG actual, (wh.1 : ℚ), (wh.2 : ℚ), env.pageNum,
                "page-" ++ toString env.pageNum ++ "-" ++ jsNameString actual,
                false, none⟩],
            imageIndex := s.imageIndex + 1,
            extractedObjects := actual :: s.extractedObjects }
      | none =>
        if isForm then
          let wh := formBBoxDims obj
          let t := currentTransform s
          let tw := |t.a * wh.1|
          let th := |t.d * wh.2|
          let x := t.e * env.scale
          let y := env.viewportHeight - t.f * env.scale - th
          if 1 < tw ∧ 1 < th then
            { s with
              images := s.images ++
                [⟨s.imageIndex, env.renderCrop x y tw th, tw, th, env.pageNum,
                  "page-" ++ toString env.pageNum ++ "-form-" ++ jsNameString actual,
                  false, none⟩],
              imageIndex := s.imageIndex + 1,
              extractedObjects := actual :: s.extractedObjects }
          else s
        else s

/-- One iteration of the operator loop: the dispatch on the opcode. -/
def scanStep (env : PageEnv) (s : ScanState) : PdfOp → ScanState
  | .dependency n => { s with lastDependencyName := n }
  | .save =>
      { s with
        transformStack := currentTransform s :: s.transformStack,
        clippingStack := s.currentClipBounds :: s.clippingStack }
  | .restore =>
      let ts := if 1 < s.transformStack.length then s.transformStack.tail
                else s.transformStack
      match s.clippingStack with
      | [] => { s with transformStack := ts }
      | cb :: rest =>
          { s with transformStack := ts, currentClipBounds := cb, clippingStack := rest }
  | .transform m =>
      { s with transformStack := applyMat (currentTransform s) m :: s.transformStack.tail }
  | .constructPath pathData =>
      match pathData with
      | none => s
      | some data =>
          if 4 ≤ data.length then { s with currentClipBounds := some (pathBBox data) }
          else s
  | .clip => s
  | .shadingFill =>
      match s.currentClipBounds with
      | none => s
      | some cb =>
        let t := currentTransform s
        let x1 := cb.minX * t.a + cb.minY * t.c + t.e
        let y1 := cb.minX * t.b + cb.minY * t.d + t.f
        let x2 := cb.maxX * t.a + cb.maxY * t.c + t.e
        let y2 := cb.maxX * t.b + cb.maxY * t.d + t.f
        let canvasX := min x1 x2 * env.scale
        let canvasY := env.viewportHeight - max y1 y2 * env.scale
        let w := |x2 - x1| * env.scale
        let h := |y2 - y1| * env.scale
        if 1 < w ∧ 1 < h then
          { s with
            images := s.images ++
              [⟨s.imageIndex, env.renderCrop canvasX canvasY w h, w, h, env.pageNum,
                "page-" ++ toString env.pageNum ++ "-shading-" ++ toString s.shadingIndex,
                false, none⟩],
            imageIndex := s.imageIndex + 1,
            shadingIndex := s.shadingIndex + 1 }
        else s
  | .paintImageXObject n => paintOp env s false n
  | .paintInlineImageXObject n => paintOp env s false n
  | .paintFormXObjectBegin n1 =>
      paintOp env s true (if truthy n1 then n1 else s.lastDependencyName)
  | .other => s

/-- Full scan of an operator list, left to right. -/
def scanOps (env : PageEnv) (s : ScanState) (ops : List PdfOp) : ScanState :=
  ops.foldl (scanStep env) s

/-- ImgObject stands for an XObject of the destination document as seen
through pdf-lib: the `xObj && xObj.dict` existence plus the Subtype check
collapse into `isImage`; `width`/`height` are `none` when the dictionary
entry is absent or falsy; the remaining fields are the dictionary entries
written by the manual replacement path, plus the raw stream contents. -/
structure ImgObject where
  isImage : Bool
  width : Option ℚ
  height : Option ℚ
  bitsPerComponent : Option ℕ
  colorSpace : Option String
  filter : Option String
  contents : String
deriving DecidableEq

/-- PdfPage carries the XObject dictionary entries of one page as an
association list from key name to object reference number; `none` models
a page whose Resources/XObject lookup fails or is not iterable. -/
structure PdfPage where
  xObjects : Option (List (String × ℕ))
deriving DecidableEq

/-- PdfDocX is the destination document object graph: pages in order, the
reference table (`pdfDoc.context.lookup`), and the next free reference
number used when embedPng registers a wholly new object. -/
structure PdfDocX where
  pages : List PdfPage
  objects : ℕ → Option ImgObject
  nextRef : ℕ

/-- Replacement is one planned pairing pushed onto `replacements`. -/
structure Replacement where
  pageNum : ℕ
  xObjKeyName : String
  xObjRef : ℕ
  optimizedImg : ExtractedImage
  width : ℚ
  height : ℚ
deriving DecidableEq

/-- Grouping of the extracted records by page number as done by the
`imagesByPage` map: per-page lists keep insertion order. -/
def imagesForPage (imgs : List ExtractedImage) (pageNum : ℕ) : List ExtractedImage :=
  imgs.filter (fun i => i.pageNum == pageNum)

/-- The matched-set key of a record, the pair encoded by the JS string
`pageNum-index` (the encoding is injective on pairs of naturals). -/
def imgKey (i : ExtractedImage) : ℕ × ℕ := (i.pageNum, i.index)

/-- The inner `for (const img of pageImages)` loop: return the first
record not in the matched set whose dimensions equal the XObject
dimensions exactly. -/
def scanCandidates (w h : ℚ) (matched : List (ℕ × ℕ)) :
    List ExtractedImage → Option ExtractedImage
  | [] => none
  | img :: rest =>
      if imgKey img ∉ matched ∧ img.width = w ∧ img.height = h then some img
      else scanCandidates w h matched rest

/-- Processing of one XObject dictionary entry of one page during the
matching pass; the accumulator is the matched set together with the
replacement plan built so far. -/
def processEntry (doc : PdfDocX) (pageNum : ℕ) (pageImgs : List ExtractedImage)
    (acc : List (ℕ × ℕ) × List Replacement) (e : String × ℕ) :
    List (ℕ × ℕ) × List Replacement :=
  match doc.objects e.2 with
  | none => acc
  | some x =>
    if x.isImage then
      match x.width, x.height with
      | some w, some h =>
        match scanCandidates w h acc.1 pageImgs with
        | some img => (imgKey img :: acc.1, acc.2 ++ [⟨pageNum, e.1, e.2, img, w, h⟩])
        | none => acc
      | _, _ => acc
    else acc

/-- Processing of one page of the matching pass; the page is paired with
its zero-based index, and pages whose XObject dictionary is unavailable
are skipped. -/
def processPage (doc : PdfDocX) (imgs : List ExtractedImage)
    (acc : List (ℕ × ℕ) × List Replacement) (ip : ℕ × PdfPage) :
    List (ℕ × ℕ) × List Replacement :=
  match ip.2.xObjects with
  | none => acc
  | some entries =>
      entries.foldl (processEntry doc (ip.1 + 1) (imagesForPage imgs (ip.1 + 1))) acc

/-- The whole matching pass of the save handler: walk every page in
order, producing the matched set and the replacement plan. -/
def buildReplacements (doc : PdfDocX) (imgs : List ExtractedImage) :
    List (ℕ × ℕ) × List Replacement :=
  doc.pages.enum.foldl (processPage doc imgs) ([], [])

/-- MatchedPlanInv is the running invariant of the matching pass: the
record keys consumed so far are distinct, every planned record key is in
the matched set, and every planned pairing carries the dimensions and
page number of its matched record. -/
def MatchedPlanInv (acc : List (ℕ × ℕ) × List Replacement) : Prop :=
  (acc.2.map (fun r => imgKey r.optimizedImg)).Nodup ∧
  (∀ r ∈ acc.2, imgKey r.optimizedImg ∈ acc.1) ∧
  (∀ r ∈ acc.2, r.optimizedImg.pageNum = r.pageNum ∧
    r.optimizedImg.width = r.width ∧ r.optimizedImg.height = r.height)

/-- Payload selection `optimizedImg.optimizedDataURL || optimizedImg.dataURL`:
a present but empty optimized string is falsy in JS and also falls back. -/
def dataURLToUse (r : Replacement) : String :=
  match r.optimizedImg.optimizedDataURL with
  | some s => if s.isEmpty then r.optimizedImg.dataURL else s
  | none => r.optimizedImg.dataURL

/-- Substring containment, the semantics of `String.prototype.includes`. -/
def strIncludes (s pat : String) : Bool :=
  (List.range (s.length + 1)).any (fun i => pat.toList.isPrefixOf (s.toList.drop i))

/-- PatchEnv carries the two effectful collaborators of the patch loop:
fetch-and-decode of a dataURL to raw bytes, and the pdf-lib embedPng
call producing the wholly new image object. A `none` result models a
thrown JS exception. -/
structure PatchEnv where
  decode : String → Option String
  embedPng : String → Option ImgObject

/-- Repoint one key of the XObject dictionary of a page to a new
reference (`xObjects.set(PDFName.of(xObjKeyName), newImageRef)`). -/
def setXObjectEntry (p : PdfPage) (key : String) (newRef : ℕ) : PdfPage :=
  match p.xObjects with
  | none => p
  | some entries =>
      ⟨some (entries.map (fun kv => if kv.1 = key then (kv.1, newRef) else kv))⟩

/-- Pointwise update of the reference table. -/
def updateObjects (f : ℕ → Option ImgObject) (r : ℕ) (o : ImgObject) :
    ℕ → Option ImgObject :=
  fun n => if n = r then some o else f n

/-- The manual stream replacement path: overwrite the dictionary and the
contents of the existing object in place, preserving its reference. -/
def manualReplace (doc : PdfDocX) (r : Replacement) (bytes : String) (isJpeg : Bool) :
    PdfDocX :=
  { doc with
    objects := updateObjects doc.objects r.xObjRef
      ⟨true, some r.width, some r.height, some 8, some "DeviceRGB",
       some (if isJpeg then "DCTDecode" else "FlateDecode"), bytes⟩ }

/-- The embedPng success path: register the new image object under a
fresh reference and repoint the page XObject entry to it, leaving the old
object orphaned. When the page or its XObject dictionary cannot be
reached the entry repointing throws in JS after the object was already
registered, so only the registration survives. -/
def embedReplace (doc : PdfDocX) (r : Replacement) (newObj : ImgObject) : PdfDocX :=
  let newRef := doc.nextRef
  let pages :=
    match doc.pages.get? (r.pageNum - 1) with
    | none => doc.pages
    | some p => doc.pages.set (r.pageNum - 1) (setXObjectEntry p r.xObjKeyName newRef)
  ⟨pages, updateObjects doc.objects newRef newObj, newRef + 1⟩

/-- One planned replacement, inside its own try/catch: a decode failure
or a missing old object skips it; a PNG payload first tries embedPng and
falls back to the manual stream replacement when that throws; any other
payload goes straight to the manual replacement. -/
def patchOne (env : PatchEnv) (doc : PdfDocX) (r : Replacement) : PdfDocX :=
  match env.decode (dataURLToUse r) with
  | none => doc
  | some bytes =>
    match doc.objects r.xObjRef with
    | none => doc
    | some _ =>
      let u := dataURLToUse r
      let isJpeg := strIncludes u "image/jpeg"
      if strIncludes u "image/png" then
        match env.embedPng bytes with
        | some newObj => embedReplace doc r newObj
        | none => manualReplace doc r bytes isJpeg
      else manualReplace doc r bytes isJpeg

/-- The whole patch loop over the replacement plan. Totality of this
function is the no-exception-escapes property of the per-replacement
try/catch: the save that follows always receives a document. -/
def applyReplacements (env : PatchEnv) (doc : PdfDocX) (reps : List Replacement) :
    PdfDocX :=
  reps.foldl (patchOne env) doc

/-- Concrete page environment with an empty object table, used to
evaluate the scan on concrete inputs. -/
def testEnv : PageEnv :=
  ⟨1, 2, 100, fun _ => none, fun _ => "png", fun _ _ _ _ => "crop"⟩

/-- Concrete page environment whose object table holds one bitmap-backed
image object named Im1 of pixel size 3 by 4. -/
def envBitmap : PageEnv :=
  ⟨1, 2, 100,
   fun n => if n = .str "Im1" then some ⟨some (3, 4), none⟩ else none,
   fun _ => "png", fun _ _ _ _ => "crop"⟩

/-- Concrete page environment whose object table holds one form object
named F1 with BBox [0, 0, 10, 10] and no bitmap. -/
def envForm : PageEnv :=
  ⟨1, 2, 100,
   fun n => if n = .str "F1" then some ⟨none, some [0, 0, 10, 10]⟩ else none,
   fun _ => "png", fun _ _ _ _ => "crop"⟩

/-- Scan state whose only transform frame scales x by 1/20, making a 10
by 10 form degenerate in width. -/
def smallScaleState : ScanState :=
  { initScanState with transformStack := [⟨1/20, 0, 0, 1, 0, 0⟩] }

/-- Scan state carrying a degenerate (zero-area) current clip bounds. -/
def degClipState : ScanState :=
  { initScanState with currentClipBounds := some ⟨0, 0, 0, 0⟩ }

/-- Scan state carrying a 10 by 10 current clip bounds. -/
def boxClipState : ScanState :=
  { initScanState with currentClipBounds := some ⟨0, 0, 10, 10⟩ }

/-- Concrete original image object of a destination document. -/
def origObj : ImgObject := ⟨true, some 3, some 4, none, none, none, "orig"⟩

/-- Concrete destination document: one page with one 3 by 4 image
XObject stored under key Im0 at reference 5. -/
def testDoc : PdfDocX :=
  ⟨[⟨some [("Im0", 5)]⟩], fun n => if n = 5 then some origObj else none, 10⟩

/-- Concrete extracted record matching the 3 by 4 XObject of `testDoc`,
never optimized. -/
def testRecord : ExtractedImage :=
  ⟨0, "data:image/png;base64,AA", 3, 4, 1, "page-1-Im0", false, none⟩

/-- Concrete planned replacement pairing `testDoc`s XObject with
`testRecord`. -/
def testRep : Replacement := ⟨1, "Im0", 5, testRecord, 3, 4⟩

/-- Patch environment whose decoding succeeds and whose embedPng call
always throws. -/
def patchEnvNoEmbed : PatchEnv := ⟨fun _ => some "BYTES", fun _ => none⟩

/-- Patch environment whose decoding always throws. -/
def patchEnvDecodeFail : PatchEnv := ⟨fun _ => none, fun _ => none⟩

/-- Concrete image object returned by a successful embedPng call. -/
def embeddedObj : ImgObject := ⟨true, some 3, some 4, some 8, none, none, "EMB"⟩

/-- Patch environment whose decoding and embedPng both succeed. -/
def patchEnvEmbedOk : PatchEnv := ⟨fun _ => some "BYTES", fun _ => some embeddedObj⟩

/-- Helper: validity of a name implies its truthiness. -/
theorem truthy_of_validName (n : NameArg) (h : validName n = true) : truthy n = true := by
  cases n <;> simp_all [validName, truthy]

/-- Helper: applying an incoming matrix on top of the identity yields the
incoming matrix itself. -/
theorem applyMat_idMat (m : TMat) : applyMat idMat m = m := by
  simp [applyMat, idMat]

/-- C1: processing a transform operator replaces the top-of-stack matrix
(a0, b0, c0, d0, e0, f0) with exactly (a*a0+b*c0, a*b0+b*d0, c*a0+d*c0,
c*b0+d*d0, e*a0+f*c0+e0, e*b0+f*d0+f0) for incoming (a, b, c, d, e, f),
and two sequential transform operators A then B applied from the identity
produce exactly the combined matrix of B multiplied onto A in that
documented order. -/
theorem c1_transform_composition :
    (∀ (env : PageEnv) (s : ScanState) (m c0 : TMat) (rest : List TMat),
        s.transformStack = c0 :: rest →
        (scanStep env s (.transform m)).transformStack = applyMat c0 m :: rest ∧
        applyMat c0 m =
          ⟨m.a * c0.a + m.b * c0.c, m.a * c0.b + m.b * c0.d,
           m.c * c0.a + m.d * c0.c, m.c * c0.b + m.d * c0.d,
           m.e * c0.a + m.f * c0.c + c0.e, m.e * c0.b + m.f * c0.d + c0.f⟩) ∧
    (∀ (env : PageEnv) (A B : TMat),
        currentTransform (scanOps env initScanState [.transform A, .transform B]) =
          applyMat A B) := by
  constructor
  · intro env s m c0 rest h
    refine ⟨?_, rfl⟩
    simp [scanStep, currentTransform, h]
  · intro env A B
    simp [scanOps, scanStep, currentTransform, initScanState, applyMat_idMat]

/-- Witness for C1 at a concrete rotation-plus-translation input. -/
theorem c1_transform_composition_witness :
    (scanStep testEnv initScanState (.transform ⟨0, 1, -1, 0, 3, 4⟩)).transformStack =
      applyMat idMat ⟨0, 1, -1, 0, 3, 4⟩ :: [] :=
  (c1_transform_composition.1 testEnv initScanState ⟨0, 1, -1, 0, 3, 4⟩ idMat [] rfl).1

/-- C10: a constructPath operator whose coordinate array is absent or
shorter than four entries leaves the scan state, in particular the
current clip-bounds value, unchanged, so the bounds of an earlier path
remain the current clip candidate for subsequent operators. -/
theorem c10_short_path_keeps_clip :
    ∀ (env : PageEnv) (s : ScanState),
      scanStep env s (.constructPath none) = s ∧
      (∀ data : List ℚ, data.length < 4 →
          scanStep env s (.constructPath (some data)) = s) ∧
      (∀ rest, scanOps env s (.constructPath none :: rest) = scanOps env s rest) := by
  intro env s
  refine ⟨rfl, ?_, ?_⟩
  · intro data h
    simp only [scanStep]
    rw [if_neg (by omega)]
  · intro rest
    rfl

/-- Witness for C10 at a concrete three-entry coordinate array. -/
theorem c10_short_path_keeps_clip_witness :
    scanStep testEnv degClipState (.constructPath (some [1, 2, 3])) = degClipState :=
  (c10_short_path_keeps_clip testEnv degClipState).2.1 [1, 2, 3] (by simp)

/-- Helper: a restore directly after a save returns the scan state it
started from, provided the transform stack is nonempty. -/
theorem saveRestoreStep (env : PageEnv) (s : ScanState) (h : s.transformStack ≠ []) :
    scanStep env (scanStep env s .save) .restore = s := by
  obtain ⟨ts0, cs0, cb0, ld0, eo0, si0, ii0, im0⟩ := s
  obtain ⟨c, ts, hts⟩ := List.exists_cons_of_ne_nil h
  simp only at hts
  subst hts
  simp [scanStep, currentTransform]

/-- Helper: handling a paint operator never touches the transform stack. -/
theorem paintOp_transformStack (env : PageEnv) (s : ScanState) (b : Bool) (n : NameArg) :
    (paintOp env s b n).transformStack = s.transformStack := by
  simp only [paintOp]
  repeat' split
  all_goals rfl

/-- Helper: the restore step keeps the transform stack when at depth at
most one, and pops exactly one frame otherwise. -/
theorem restore_transformStack (env : PageEnv) (s : ScanState) :
    (scanStep env s .restore).transformStack =
      (if 1 < s.transformStack.length then s.transformStack.tail
       else s.transformStack) := by
  simp only [scanStep]
  cases s.clippingStack <;> rfl

/-- Helper: no scan step empties the transform stack. -/
theorem scanStep_stack_ne_nil (env : PageEnv) (s : ScanState) (op : PdfOp)
    (h : s.transformStack ≠ []) : (scanStep env s op).transformStack ≠ [] := by
  cases op with
  | dependency n => exact h
  | save => exact List.cons_ne_nil _ _
  | restore =>
      rw [restore_transformStack]
      split
      · next hlen =>
          have hpos : 0 < s.transformStack.tail.length := by
            rw [List.length_tail]; omega
          exact List.ne_nil_of_length_pos hpos
      · exact h
  | transform m => exact List.cons_ne_nil _ _
  | constructPath pd =>
      have heq : (scanStep env s (.constructPath pd)).transformStack = s.transformStack := by
        simp only [scanStep]
        repeat' split
        all_goals rfl
      rw [heq]; exact h
  | clip => exact h
  | shadingFill =>
      have heq : (scanStep env s .shadingFill).transformStack = s.transformStack := by
        simp only [scanStep]
        repeat' split
        all_goals rfl
      rw [heq]; exact h
  | paintImageXObject n =>
      rw [show scanStep env s (.paintImageXObject n) = paintOp env s false n from rfl,
        paintOp_transformStack]
      exact h
  | paintInlineImageXObject n =>
      rw [show scanStep env s (.paintInlineImageXObject n) = paintOp env s false n from rfl,
        paintOp_transformStack]
      exact h
  | paintFormXObjectBegin n1 =>
      rw [show scanStep env s (.paintFormXObjectBegin n1) =
            paintOp env s true (if truthy n1 then n1 else s.lastDependencyName) from rfl,
        paintOp_transformStack]
      exact h
  | other => exact h

/-- C3: from any tracker state with a nonempty transform stack, N save
operators followed by N restore operators restore the scan state exactly
(same top matrix, same current clip-bounds value); no operator sequence
empties the transform stack; and a restore at stack depth 1 leaves the
transform stack unchanged. -/
theorem c3_save_restore_balance :
    (∀ (env : PageEnv) (s : ScanState) (n : ℕ), s.transformStack ≠ [] →
        scanOps env s (List.replicate n .save ++ List.replicate n .restore) = s) ∧
    (∀ (env : PageEnv) (s : ScanState) (ops : List PdfOp), s.transformStack ≠ [] →
        (scanOps env s ops).transformStack ≠ []) ∧
    (∀ (env : PageEnv) (s : ScanState), s.transformStack.length = 1 →
        (scanStep env s .restore).transformStack = s.transformStack) := by
  refine ⟨?_, ?_, ?_⟩
  · intro env s n
    induction n generalizing s with
    | zero => intro _; rfl
    | succ k ih =>
        intro h
        have hseq : List.replicate (k + 1) PdfOp.save ++ List.replicate (k + 1) PdfOp.restore =
            PdfOp.save ::
              ((List.replicate k PdfOp.save ++ List.replicate k PdfOp.restore) ++
                [PdfOp.restore]) := by
          rw [List.replicate_succ, List.replicate_succ']
          simp
        rw [hseq]
        show scanOps env s (PdfOp.save ::
          ((List.replicate k PdfOp.save ++ List.replicate k PdfOp.restore) ++
            [PdfOp.restore])) = s
        have h1 : (scanStep env s .save).transformStack ≠ [] := by
          simp [scanStep]
        calc scanOps env s (PdfOp.save ::
              ((List.replicate k PdfOp.save ++ List.replicate k PdfOp.restore) ++
                [PdfOp.restore]))
            = scanStep env
                (scanOps env (scanStep env s .save)
                  (List.replicate k PdfOp.save ++ List.replicate k PdfOp.restore))
                .restore := by
              simp [scanOps, List.foldl_append]
          _ = scanStep env (scanStep env s .save) .restore := by rw [ih _ h1]
          _ = s := saveRestoreStep env s h
  · intro env s ops
    induction ops generalizing s with
    | nil => intro h; exact h
    | cons op rest ih =>
        intro h
        exact ih _ (scanStep_stack_ne_nil env s op h)
  · intro env s h
    have hcase : (scanStep env s .restore).transformStack =
        (if 1 < s.transformStack.length then s.transformStack.tail
         else s.transformStack) := by
      simp only [scanStep]
      cases s.clippingStack <;> rfl
    rw [hcase, if_neg (by omega)]

/-- Witness for C3: two saves then two restores from the initial state
return the initial state, and a restore at depth 1 keeps the stack. -/
theorem c3_save_restore_balance_witness :
    scanOps testEnv initScanState
        (List.replicate 2 .save ++ List.replicate 2 .restore) = initScanState ∧
    (scanStep testEnv initScanState .restore).transformStack =
      initScanState.transformStack :=
  ⟨c3_save_restore_balance.1 testEnv initScanState 2 (by simp [initScanState]),
   c3_save_restore_balance.2.2 testEnv initScanState (by simp [initScanState])⟩

/-- Counterexample to C4 as stated: the name Im1 is painted twice on a
page whose object table never resolves it, and zero (not exactly one)
ExtractedImage records are produced. -/
theorem c4_dedup_counterexample :
    (scanOps testEnv initScanState
        [.paintImageXObject (.str "Im1"), .paintImageXObject (.str "Im1")]).images = [] := by
  decide

/-- C4 (amended): the engine keeps a per-page set of already-extracted
source names; a paint operator whose valid resolved name is already in
that set leaves the scan state unchanged (the second occurrence is
skipped), and when the name resolves to a bitmap-backed object, painting
it twice from a fresh page state produces exactly one record; however a
name painted twice need not produce any record when no occurrence
successfully extracts. -/
theorem c4_dedup_amended :
    (∀ (env : PageEnv) (s : ScanState) (n : NameArg),
        validName n = true → n ∈ s.extractedObjects →
        scanStep env s (.paintImageXObject n) = s ∧
        scanStep env s (.paintInlineImageXObject n) = s ∧
        scanStep env s (.paintFormXObjectBegin n) = s) ∧
    (∀ (env : PageEnv) (n : NameArg) (wh : ℕ × ℕ) (bb : Option (List ℚ)),
        validName n = true →
        env.objs n = some ⟨some wh, bb⟩ →
        (scanOps env initScanState
            [.paintImageXObject n, .paintImageXObject n]).images.length = 1) := by
  constructor
  · intro env s n hv hmem
    have ht := truthy_of_validName n hv
    refine ⟨?_, ?_, ?_⟩
    · show paintOp env s false n = s
      simp [paintOp, hv, hmem]
    · show paintOp env s false n = s
      simp [paintOp, hv, hmem]
    · show paintOp env s true (if truthy n then n else s.lastDependencyName) = s
      rw [if_pos ht]
      simp [paintOp, hv, hmem]
  · intro env n wh bb hv hobjs
    have h1 : scanStep env initScanState (.paintImageXObject n) =
        { initScanState with
          images := [⟨0, env.objPNG n, (wh.1 : ℚ), (wh.2 : ℚ), env.pageNum,
            "page-" ++ toString env.pageNum ++ "-" ++ jsNameString n, false, none⟩],
          imageIndex := 1,
          extractedObjects := [n] } := by
      show paintOp env initScanState false n = _
      simp [paintOp, hv, hobjs, initScanState]
    show ((scanStep env (scanStep env initScanState (.paintImageXObject n))
        (.paintImageXObject n)).images).length = 1
    rw [h1]
    show (paintOp env _ false n).images.length = 1
    simp [paintOp]

/-- Witness for C4 (amended) at the bitmap-backed concrete environment. -/
theorem c4_dedup_amended_witness :
    (scanOps envBitmap initScanState
        [.paintImageXObject (.str "Im1"), .paintImageXObject (.str "Im1")]).images.length = 1 :=
  c4_dedup_amended.2 envBitmap (.str "Im1") (3, 4) none (by decide) (by decide)

/-- Counterexample to C5 as stated: a shadingFill with active clip bounds
of zero area emits no record at all (the claim asserts an emitted record
whenever clip bounds are active). -/
theorem c5_shading_counterexample :
    (scanStep testEnv degClipState .shadingFill).images = [] ∧
    degClipState.currentClipBounds.isSome = true := by
  constructor
  · norm_num [scanStep, degClipState, initScanState, currentTransform, idMat, testEnv]
  · rfl

/-- C5 (amended): a shadingFill with no active clip bounds is skipped and
emits nothing; the per-page shading counter starts at 0; with active clip
bounds the clip corners are transformed through the current transform and
flipped into render-canvas space, and provided the resulting scaled width
and height each exceed 1 exactly one record is emitted whose name is
page-n-shading-k for the current counter value k, the counter then
incrementing by one; a degenerate region emits nothing and leaves the
counter unchanged. -/
theorem c5_shading_amended :
    (∀ (env : PageEnv) (s : ScanState), s.currentClipBounds = none →
        scanStep env s .shadingFill = s) ∧
    initScanState.shadingIndex = 0 ∧
    (∀ (env : PageEnv) (s : ScanState) (cb : ClipBounds),
        s.currentClipBounds = some cb →
        let t := currentTransform s
        let x1 := cb.minX * t.a + cb.minY * t.c + t.e
        let y1 := cb.minX * t.b + cb.minY * t.d + t.f
        let x2 := cb.maxX * t.a + cb.maxY * t.c + t.e
        let y2 := cb.maxX * t.b + cb.maxY * t.d + t.f
        let w := |x2 - x1| * env.scale
        let h := |y2 - y1| * env.scale
        (1 < w ∧ 1 < h →
          scanStep env s .shadingFill =
            { s with
              images := s.images ++
                [⟨s.imageIndex,
                  env.renderCrop (min x1 x2 * env.scale)
                    (env.viewportHeight - max y1 y2 * env.scale) w h,
                  w, h, env.pageNum,
                  "page-" ++ toString env.pageNum ++ "-shading-" ++ toString s.shadingIndex,
                  false, none⟩],
              imageIndex := s.imageIndex + 1,
              shadingIndex := s.shadingIndex + 1 }) ∧
        (w ≤ 1 ∨ h ≤ 1 → scanStep env s .shadingFill = s)) := by
  refine ⟨?_, rfl, ?_⟩
  · intro env s hcb
    simp [scanStep, hcb]
  · intro env s cb hcb
    dsimp only
    constructor
    · intro hcond
      simp only [scanStep, hcb]
      rw [if_pos hcond]
    · intro hdeg
      simp only [scanStep, hcb]
      rw [if_neg]
      rintro ⟨hw, hh⟩
      rcases hdeg with hd | hd
      · exact absurd hw (not_lt.mpr hd)
      · exact absurd hh (not_lt.mpr hd)

/-- Witness for C5 (amended): a 10 by 10 clip box under the identity
transform at scale 2 yields one 20 by 20 record named page-1-shading-0
and bumps the counter to 1. -/
theorem c5_shading_amended_witness :
    scanStep testEnv boxClipState .shadingFill =
      { boxClipState with
        images := [⟨0, "crop", 20, 20, 1, "page-1-shading-0", false, none⟩],
        imageIndex := 1,
        shadingIndex := 1 } := by
  have h := ((c5_shading_amended.2.2 testEnv boxClipState ⟨0, 0, 10, 10⟩ rfl).1
    (by norm_num [boxClipState, initScanState, currentTransform, idMat, testEnv]))
  refine h.trans ?_
  norm_num [boxClipState, initScanState, currentTransform, idMat, testEnv]
  rfl

/-- C6: a form-paint operator whose resolved object carries no bitmap and
whose transformed BBox width or height is at most 1 pixel produces zero
ExtractedImage records, changes nothing in the scan state, and the scan
of the remaining operators continues unaffected (and, the step function
being total, no exception escapes). -/
theorem c6_degenerate_form_skip :
    ∀ (env : PageEnv) (s : ScanState) (n : NameArg) (obj : PageObj),
      validName n = true →
      n ∉ s.extractedObjects →
      env.objs n = some obj →
      obj.bitmap = none →
      (|(currentTransform s).a * (formBBoxDims obj).1| ≤ 1 ∨
       |(currentTransform s).d * (formBBoxDims obj).2| ≤ 1) →
      scanStep env s (.paintFormXObjectBegin n) = s ∧
      ∀ rest, scanOps env s (.paintFormXObjectBegin n :: rest) = scanOps env s rest := by
  intro env s n obj hv hmem hobjs hbm hdeg
  have ht := truthy_of_validName n hv
  have hstep : scanStep env s (.paintFormXObjectBegin n) = s := by
    show paintOp env s true (if truthy n then n else s.lastDependencyName) = s
    rw [if_pos ht]
    simp only [paintOp, hobjs, hbm, hv]
    rw [if_neg (by simp), if_neg hmem, if_pos trivial, if_neg]
    rintro ⟨hw, hh⟩
    rcases hdeg with hd | hd
    · exact absurd hw (not_lt.mpr hd)
    · exact absurd hh (not_lt.mpr hd)
  refine ⟨hstep, fun rest => ?_⟩
  show scanOps env (scanStep env s (.paintFormXObjectBegin n)) rest = scanOps env s rest
  rw [hstep]

/-- Witness for C6: a 10 by 10 BBox form under an x-scale of 1/20
(transformed width 1/2) is skipped without any state change. -/
theorem c6_degenerate_form_skip_witness :
    scanStep envForm smallScaleState (.paintFormXObjectBegin (.str "F1")) = smallScaleState :=
  (c6_degenerate_form_skip envForm smallScaleState (.str "F1") ⟨none, some [0, 0, 10, 10]⟩
    (by decide) (by decide) (by rfl) (by rfl)
    (Or.inl (by norm_num [smallScaleState, initScanState, currentTransform, formBBoxDims, abs_le]))).1

/-- C7: the scanner records the name argument of the most recent
dependency operator; a form-paint operator whose own name slot is falsy
behaves exactly as if carrying the last recorded dependency name; and
when the resolved name is still neither a non-empty string nor an object
exposing a truthy name, that single operator is skipped and the rest of
the scan continues unaffected. -/
theorem c7_dependency_fallback :
    (∀ (env : PageEnv) (s : ScanState) (n : NameArg),
        (scanStep env s (.dependency n)).lastDependencyName = n) ∧
    (∀ (env : PageEnv) (s : ScanState) (n : NameArg), truthy n = false →
        scanStep env s (.paintFormXObjectBegin n) =
          scanStep env s (.paintFormXObjectBegin s.lastDependencyName)) ∧
    (∀ (env : PageEnv) (s : ScanState) (n : NameArg),
        validName (if truthy n then n else s.lastDependencyName) = false →
        scanStep env s (.paintFormXObjectBegin n) = s ∧
        ∀ rest, scanOps env s (.paintFormXObjectBegin n :: rest) = scanOps env s rest) := by
  refine ⟨fun env s n => rfl, ?_, ?_⟩
  · intro env s n hn
    show paintOp env s true (if truthy n then n else s.lastDependencyName) =
      paintOp env s true
        (if truthy s.lastDependencyName then s.lastDependencyName else s.lastDependencyName)
    rw [if_neg (by simp [hn]), ite_self]
  · intro env s n hv
    have hstep : scanStep env s (.paintFormXObjectBegin n) = s := by
      show paintOp env s true (if truthy n then n else s.lastDependencyName) = s
      simp only [paintOp, hv]
      simp
    refine ⟨hstep, fun rest => ?_⟩
    show scanOps env (scanStep env s (.paintFormXObjectBegin n)) rest = scanOps env s rest
    rw [hstep]

/-- Witness for C7: a dependency operator recording Im9, then a
form-paint with null name resolving through the fallback, and a skip on
a completely unresolvable name. -/
theorem c7_dependency_fallback_witness :
    (scanStep testEnv initScanState (.dependency (.str "Im9"))).lastDependencyName =
      .str "Im9" ∧
    scanStep testEnv initScanState (.paintFormXObjectBegin .jsNull) =
      scanStep testEnv initScanState
        (.paintFormXObjectBegin initScanState.lastDependencyName) ∧
    scanStep testEnv initScanState (.paintFormXObjectBegin .objNoName) = initScanState :=
  ⟨c7_dependency_fallback.1 testEnv initScanState (.str "Im9"),
   c7_dependency_fallback.2.1 testEnv initScanState .jsNull (by decide),
   (c7_dependency_fallback.2.2 testEnv initScanState .objNoName (by decide)).1⟩

/-- Helper: the inner candidate scan equals a first-match search. -/
theorem scanCandidates_eq_find (w h : ℚ) (m : List (ℕ × ℕ)) (l : List ExtractedImage) :
    scanCandidates w h m l =
      l.find? (fun img => decide (imgKey img ∉ m ∧ img.width = w ∧ img.height = h)) := by
  induction l with
  | nil => rfl
  | cons img rest ih =>
      by_cases hp : imgKey img ∉ m ∧ img.width = w ∧ img.height = h
      · simp only [scanCandidates, if_pos hp]
        rw [List.find?_cons_of_pos _ (by simpa using hp)]
      · simp only [scanCandidates, if_neg hp]
        rw [List.find?_cons_of_neg _ (by simpa using hp), ih]

/-- Helper: facts recovered from a successful candidate scan. -/
theorem scanCandidates_facts {w h : ℚ} {m : List (ℕ × ℕ)} {l : List ExtractedImage}
    {img : ExtractedImage} (hsc : scanCandidates w h m l = some img) :
    imgKey img ∉ m ∧ img.width = w ∧ img.height = h ∧ img ∈ l := by
  rw [scanCandidates_eq_find] at hsc
  have h1 := List.find?_some hsc
  have h2 := List.mem_of_find?_eq_some hsc
  simp only [decide_eq_true_eq] at h1
  exact ⟨h1.1, h1.2.1, h1.2.2, h2⟩

/-- Helper: the result of one matching-pass entry step is either the
unchanged accumulator or the push of exactly one replacement built from a
successful candidate scan. -/
theorem processEntry_shape (doc : PdfDocX) (pn : ℕ) (pageImgs : List ExtractedImage)
    (acc : List (ℕ × ℕ) × List Replacement) (e : String × ℕ) :
    processEntry doc pn pageImgs acc e = acc ∨
    ∃ img w h, scanCandidates w h acc.1 pageImgs = some img ∧
      processEntry doc pn pageImgs acc e =
        (imgKey img :: acc.1, acc.2 ++ [⟨pn, e.1, e.2, img, w, h⟩]) := by
  simp only [processEntry]
  split
  · exact Or.inl rfl
  · split
    · split
      · split
        · refine Or.inr ⟨_, _, _, ?_, rfl⟩
          assumption
        · exact Or.inl rfl
      · exact Or.inl rfl
    · exact Or.inl rfl

/-- Helper: one matching-pass entry step preserves the plan invariant. -/
theorem processEntry_inv (doc : PdfDocX) (pn : ℕ) (pageImgs : List ExtractedImage)
    (hpg : ∀ i ∈ pageImgs, i.pageNum = pn)
    (acc : List (ℕ × ℕ) × List Replacement) (e : String × ℕ)
    (hP : MatchedPlanInv acc) : MatchedPlanInv (processEntry doc pn pageImgs acc e) := by
  rcases processEntry_shape doc pn pageImgs acc e with heq | ⟨img, w, h, hsc, heq⟩
  · rw [heq]; exact hP
  · rw [heq]
    obtain ⟨hnd, hmem, hdim⟩ := hP
    obtain ⟨hnotin, hwidth, hheight, hin⟩ := scanCandidates_facts hsc
    refine ⟨?_, ?_, ?_⟩
    · simp only [List.map_append, List.map_cons, List.map_nil]
      refine hnd.append (List.nodup_singleton _) ?_
      intro a ha hb
      simp only [List.mem_singleton] at hb
      subst hb
      obtain ⟨r, hr, hkey⟩ := List.mem_map.mp ha
      exact hnotin (hkey ▸ hmem r hr)
    · intro r hr
      rcases List.mem_append.mp hr with hr | hr
      · exact List.mem_cons_of_mem _ (hmem r hr)
      · simp only [List.mem_singleton] at hr
        subst hr
        exact List.mem_cons_self _ _
    · intro r hr
      rcases List.mem_append.mp hr with hr | hr
      · exact hdim r hr
      · simp only [List.mem_singleton] at hr
        subst hr
        exact ⟨hpg img hin, hwidth, hheight⟩

/-- Helper: a fold preserves any invariant its step preserves. -/
theorem foldl_preserve {α β : Type} (P : β → Prop) (f : β → α → β)
    (hf : ∀ b a, P b → P (f b a)) :
    ∀ (l : List α) (b : β), P b → P (l.foldl f b) := by
  intro l
  induction l with
  | nil => intro b hb; exact hb
  | cons a l ih => intro b hb; exact ih _ (hf b a hb)

/-- Helper: every record grouped for a page carries that page number. -/
theorem imagesForPage_pageNum (imgs : List ExtractedImage) (pn : ℕ) :
    ∀ i ∈ imagesForPage imgs pn, i.pageNum = pn := by
  intro i hi
  have := List.of_mem_filter hi
  simpa using this

/-- Helper: one matching-pass page step preserves the plan invariant. -/
theorem processPage_inv (doc : PdfDocX) (imgs : List ExtractedImage)
    (acc : List (ℕ × ℕ) × List Replacement) (ip : ℕ × PdfPage)
    (hP : MatchedPlanInv acc) : MatchedPlanInv (processPage doc imgs acc ip) := by
  simp only [processPage]
  cases ip.2.xObjects with
  | none => exact hP
  | some entries =>
      exact foldl_preserve MatchedPlanInv _
        (fun b a => processEntry_inv doc (ip.1 + 1) _
          (imagesForPage_pageNum imgs (ip.1 + 1)) b a) entries acc hP

/-- Helper: the whole matching pass satisfies the plan invariant. -/
theorem buildReplacements_inv (doc : PdfDocX) (imgs : List ExtractedImage) :
    MatchedPlanInv (buildReplacements doc imgs) := by
  exact foldl_preserve MatchedPlanInv _
    (fun b a => processPage_inv doc imgs b a) doc.pages.enum ([], [])
    ⟨List.nodup_nil, by simp, by simp⟩

/-- Helper: folding the matching step over the XObject entries of one
page appends a block of replacements whose key names form a sublist of
the entry keys and whose page number is the page being processed. -/
theorem entriesFold_shape (doc : PdfDocX) (pn : ℕ) (pageImgs : List ExtractedImage) :
    ∀ (es : List (String × ℕ)) (acc : List (ℕ × ℕ) × List Replacement),
      ∃ ds : List Replacement,
        (es.foldl (processEntry doc pn pageImgs) acc).2 = acc.2 ++ ds ∧
        List.Sublist (ds.map (fun r => r.xObjKeyName)) (es.map Prod.fst) ∧
        ∀ r ∈ ds, r.pageNum = pn := by
  intro es
  induction es with
  | nil => intro acc; exact ⟨[], by simp, by simp, by simp⟩
  | cons e es ih =>
      intro acc
      obtain ⟨ds, h1, h2, h3⟩ := ih (processEntry doc pn pageImgs acc e)
      rcases processEntry_shape doc pn pageImgs acc e with heq | ⟨img, w, h, _, heq⟩
      · refine ⟨ds, ?_, ?_, h3⟩
        · rw [List.foldl_cons, h1, heq]
        · exact List.Sublist.cons _ h2
      · refine ⟨⟨pn, e.1, e.2, img, w, h⟩ :: ds, ?_, ?_, ?_⟩
        · rw [List.foldl_cons, h1, heq]
          simp
        · simpa using List.Sublist.cons₂ e.1 h2
        · intro r hr
          rcases List.mem_cons.mp hr with hr | hr
          · subst hr; rfl
          · exact h3 r hr

/-- Helper: the second component of an indexed pair drawn from enumFrom
is a member of the underlying list. -/
theorem snd_mem_of_mem_enumFrom {α : Type} :
    ∀ (l : List α) (k : ℕ) (ip : ℕ × α), ip ∈ l.enumFrom k → ip.2 ∈ l := by
  intro l
  induction l with
  | nil => intro k ip h; simp [List.enumFrom] at h
  | cons a l ih =>
      intro k ip h
      rcases List.mem_cons.mp h with hh | hh
      · subst hh; exact List.mem_cons_self _ _
      · exact List.mem_cons_of_mem _ (ih (k + 1) ip hh)

/-- Helper: walking pages (indexed from k) keeps the planned
page-and-key pairs distinct, provided each page has distinct entry keys
and all accumulated replacements carry page numbers at most k. -/
theorem pageFold_nodup (doc : PdfDocX) (imgs : List ExtractedImage) :
    ∀ (ps : List PdfPage) (k : ℕ) (acc : List (ℕ × ℕ) × List Replacement),
      (∀ p ∈ ps, ∀ es, p.xObjects = some es → (es.map Prod.fst).Nodup) →
      (acc.2.map (fun r => (r.pageNum, r.xObjKeyName))).Nodup →
      (∀ r ∈ acc.2, r.pageNum ≤ k) →
      (((ps.enumFrom k).foldl (processPage doc imgs) acc).2.map
          (fun r => (r.pageNum, r.xObjKeyName))).Nodup ∧
      (∀ r ∈ ((ps.enumFrom k).foldl (processPage doc imgs) acc).2,
          r.pageNum ≤ k + ps.length) := by
  intro ps
  induction ps with
  | nil => intro k acc hps hnd hle; exact ⟨hnd, by simpa using hle⟩
  | cons p ps ih =>
      intro k acc hps hnd hle
      have hstep : ((processPage doc imgs acc (k, p)).2.map
            (fun r => (r.pageNum, r.xObjKeyName))).Nodup ∧
          (∀ r ∈ (processPage doc imgs acc (k, p)).2, r.pageNum ≤ k + 1) := by
        simp only [processPage]
        cases hx : p.xObjects with
        | none => exact ⟨hnd, fun r hr => Nat.le_succ_of_le (hle r hr)⟩
        | some es =>
            obtain ⟨ds, h1, h2, h3⟩ :=
              entriesFold_shape doc (k + 1) (imagesForPage imgs (k + 1)) es acc
            have hkeys : (ds.map (fun r => r.xObjKeyName)).Nodup :=
              h2.nodup (hps p (List.mem_cons_self _ _) es hx)
            constructor
            · rw [h1, List.map_append]
              refine hnd.append ?_ ?_
              · have hmapeq : ds.map (fun r => (r.pageNum, r.xObjKeyName)) =
                    (ds.map (fun r => r.xObjKeyName)).map (fun s => (k + 1, s)) := by
                  rw [List.map_map]
                  exact List.map_congr_left (fun r hr => by
                    simp [Function.comp, h3 r hr])
                rw [hmapeq]
                exact hkeys.map (fun x y hxy => by simpa using hxy)
              · intro a ha hb
                obtain ⟨r, hr, hkey⟩ := List.mem_map.mp ha
                obtain ⟨r2, hr2, hkey2⟩ := List.mem_map.mp hb
                have hle1 : a.1 ≤ k := hkey ▸ hle r hr
                have heq2 : a.1 = k + 1 := by
                  rw [← hkey2, h3 r2 hr2]
                omega
            · intro r hr
              rw [h1] at hr
              rcases List.mem_append.mp hr with hr | hr
              · exact Nat.le_succ_of_le (hle r hr)
              · exact Nat.le_of_eq (h3 r hr)
      have hrec := ih (k + 1) (processPage doc imgs acc (k, p))
        (fun q hq => hps q (List.mem_cons_of_mem _ hq)) hstep.1 hstep.2
      refine ⟨hrec.1, fun r hr => ?_⟩
      have := hrec.2 r hr
      simpa [Nat.add_comm, Nat.add_assoc, Nat.add_left_comm] using this

/-- C2: the matching pass pairs an image XObject (an entry exposing
Subtype Image plus Width and Height) with the first not-yet-consumed
record of the same page whose dimensions equal the XObject dimensions
exactly (the inner scan is a first-match search); in the resulting plan
the consumed record keys (page, index) are pairwise distinct, every
planned pairing carries its record page number and exact dimensions,
and, whenever each page has distinct XObject entry keys, no XObject
(page, key) appears in more than one planned replacement. -/
theorem c2_matching_plan :
    (∀ (w h : ℚ) (m : List (ℕ × ℕ)) (l : List ExtractedImage),
        scanCandidates w h m l =
          l.find? (fun img => decide (imgKey img ∉ m ∧ img.width = w ∧ img.height = h))) ∧
    (∀ (doc : PdfDocX) (imgs : List ExtractedImage),
        ((buildReplacements doc imgs).2.map (fun r => imgKey r.optimizedImg)).Nodup ∧
        ∀ r ∈ (buildReplacements doc imgs).2,
          r.optimizedImg.pageNum = r.pageNum ∧
          r.optimizedImg.width = r.width ∧ r.optimizedImg.height = r.height) ∧
    (∀ (doc : PdfDocX) (imgs : List ExtractedImage),
        (∀ p ∈ doc.pages, ∀ es, p.xObjects = some es → (es.map Prod.fst).Nodup) →
        ((buildReplacements doc imgs).2.map
            (fun r => (r.pageNum, r.xObjKeyName))).Nodup) := by
  refine ⟨scanCandidates_eq_find, ?_, ?_⟩
  · intro doc imgs
    have hinv := buildReplacements_inv doc imgs
    exact ⟨hinv.1, hinv.2.2⟩
  · intro doc imgs hkeys
    have hmain := pageFold_nodup doc imgs doc.pages 0 ([], []) hkeys
      (by simp) (by simp)
    exact hmain.1

/-- Witness for C2 on the concrete one-page document and its matching
record. -/
theorem c2_matching_plan_witness :
    ((buildReplacements testDoc [testRecord]).2.map
        (fun r => (r.pageNum, r.xObjKeyName))).Nodup :=
  c2_matching_plan.2.2 testDoc [testRecord] (by
    intro p hp es hes
    have hp2 : p = ⟨some [("Im0", 5)]⟩ := by simpa [testDoc] using hp
    subst hp2
    simp only [testDoc] at hes
    have hes2 : es = [("Im0", 5)] := by
      injection hes with h
      exact h.symm
    subst hes2
    decide)

/-- Helper: one patch step never lowers the next free reference. -/
theorem patchOne_nextRef_le (env : PatchEnv) (doc : PdfDocX) (r : Replacement) :
    doc.nextRef ≤ (patchOne env doc r).nextRef := by
  simp only [patchOne]
  split
  · exact le_rfl
  · split
    · exact le_rfl
    · split
      · split
        · simp only [embedReplace]
          exact Nat.le_succ _
        · exact le_rfl
      · exact le_rfl

/-- Helper: one patch step leaves every object untouched except its own
target reference and the freshly allocated embed reference. -/
theorem patchOne_objects_preserved (env : PatchEnv) (doc : PdfDocX) (r : Replacement)
    (ref : ℕ) (h1 : ref < doc.nextRef) (h2 : ref ≠ r.xObjRef) :
    (patchOne env doc r).objects ref = doc.objects ref := by
  simp only [patchOne]
  split
  · rfl
  · split
    · rfl
    · split
      · split
        · simp only [embedReplace, updateObjects]
          rw [if_neg (Nat.ne_of_lt h1)]
        · simp only [manualReplace, updateObjects]
          rw [if_neg h2]
      · simp only [manualReplace, updateObjects]
        rw [if_neg h2]

/-- Counterexample to C8 as stated: with a decodable PNG payload whose
embedPng call throws, the replacement is not skipped — the original
object at the target reference is overwritten by the manual fallback, so
the failed XObject does not remain the original. -/
theorem c8_embed_throw_counterexample :
    (patchOne patchEnvNoEmbed testDoc testRep).objects 5 ≠ testDoc.objects 5 := by
  decide

/-- C8 (amended): every planned replacement runs inside its own error
boundary; when the byte decoding throws, that replacement alone is
skipped, every remaining replacement is still applied, and the patch
loop always returns a document for the save; objects not targeted by any
replacement (and below the allocation watermark) are preserved. However,
when the PNG embedding throws, the replacement is not skipped — the
patcher falls back to the manual in-place stream replacement. -/
theorem c8_best_effort_amended :
    (∀ (env : PatchEnv) (doc : PdfDocX) (r : Replacement),
        env.decode (dataURLToUse r) = none → patchOne env doc r = doc) ∧
    (∀ (env : PatchEnv) (doc : PdfDocX) (r : Replacement) (rest : List Replacement),
        env.decode (dataURLToUse r) = none →
        applyReplacements env doc (r :: rest) = applyReplacements env doc rest) ∧
    (∀ (env : PatchEnv) (reps : List Replacement) (doc : PdfDocX) (ref : ℕ),
        ref < doc.nextRef → (∀ r ∈ reps, r.xObjRef ≠ ref) →
        (applyReplacements env doc reps).objects ref = doc.objects ref) ∧
    (∀ (env : PatchEnv) (doc : PdfDocX) (r : Replacement) (bytes : String),
        env.decode (dataURLToUse r) = some bytes →
        (doc.objects r.xObjRef).isSome = true →
        strIncludes (dataURLToUse r) "image/png" = true →
        env.embedPng bytes = none →
        patchOne env doc r =
          manualReplace doc r bytes (strIncludes (dataURLToUse r) "image/jpeg")) := by
  have hskip : ∀ (env : PatchEnv) (doc : PdfDocX) (r : Replacement),
      env.decode (dataURLToUse r) = none → patchOne env doc r = doc := by
    intro env doc r h
    simp [patchOne, h]
  refine ⟨hskip, ?_, ?_, ?_⟩
  · intro env doc r rest h
    show applyReplacements env (patchOne env doc r) rest = applyReplacements env doc rest
    rw [hskip env doc r h]
  · intro env reps
    induction reps with
    | nil => intro doc ref h1 h2; rfl
    | cons r rest ih =>
        intro doc ref h1 h2
        show (applyReplacements env (patchOne env doc r) rest).objects ref = doc.objects ref
        rw [ih (patchOne env doc r) ref (lt_of_lt_of_le h1 (patchOne_nextRef_le env doc r))
          (fun q hq => h2 q (List.mem_cons_of_mem _ hq))]
        exact patchOne_objects_preserved env doc r ref h1
          (Ne.symm (h2 r (List.mem_cons_self _ _)))
  · intro env doc r bytes hdec hsome hpng hembed
    obtain ⟨old, hold⟩ := Option.isSome_iff_exists.mp hsome
    simp [patchOne, hdec, hold, hpng, hembed]

/-- Witness for C8 (amended) on the concrete fixtures: a decode failure
skips without touching the document and without stopping the loop, an
untargeted reference survives the patch loop, and an embed failure falls
back to the manual replacement. -/
theorem c8_best_effort_amended_witness :
    patchOne patchEnvDecodeFail testDoc testRep = testDoc ∧
    applyReplacements patchEnvDecodeFail testDoc [testRep, testRep] =
      applyReplacements patchEnvDecodeFail testDoc [testRep] ∧
    (applyReplacements patchEnvNoEmbed testDoc [testRep]).objects 7 = testDoc.objects 7 ∧
    patchOne patchEnvNoEmbed testDoc testRep =
      manualReplace testDoc testRep "BYTES" (strIncludes (dataURLToUse testRep) "image/jpeg") :=
  ⟨c8_best_effort_amended.1 patchEnvDecodeFail testDoc testRep rfl,
   c8_best_effort_amended.2.1 patchEnvDecodeFail testDoc testRep [testRep] rfl,
   c8_best_effort_amended.2.2.1 patchEnvNoEmbed [testRep] testDoc 7 (by decide) (by decide),
   c8_best_effort_amended.2.2.2 patchEnvNoEmbed testDoc testRep "BYTES" rfl (by rfl)
     (by decide) rfl⟩

/-- C9: for a matched replacement whose record was never optimized the
payload falls back to the extraction-time PNG dataURL, and (decoding
succeeding and the target object existing) the patcher still rewrites
the destination XObject: on embed success the page entry is repointed to
a fresh reference holding the embedded object, and on embed failure the
object at the target reference is overwritten in place with the decoded
extraction payload. -/
theorem c9_unoptimized_reembed :
    ∀ (env : PatchEnv) (doc : PdfDocX) (r : Replacement),
      r.optimizedImg.optimizedDataURL = none →
      dataURLToUse r = r.optimizedImg.dataURL ∧
      (∀ (bytes : String) (newObj : ImgObject),
          env.decode r.optimizedImg.dataURL = some bytes →
          (doc.objects r.xObjRef).isSome = true →
          strIncludes r.optimizedImg.dataURL "image/png" = true →
          env.embedPng bytes = some newObj →
          patchOne env doc r = embedReplace doc r newObj ∧
          (patchOne env doc r).objects doc.nextRef = some newObj) ∧
      (∀ bytes : String,
          env.decode r.optimizedImg.dataURL = some bytes →
          (doc.objects r.xObjRef).isSome = true →
          strIncludes r.optimizedImg.dataURL "image/png" = true →
          env.embedPng bytes = none →
          (patchOne env doc r).objects r.xObjRef =
            some ⟨true, some r.width, some r.height, some 8, some "DeviceRGB",
                  some (if strIncludes r.optimizedImg.dataURL "image/jpeg"
                        then "DCTDecode" else "FlateDecode"), bytes⟩) := by
  intro env doc r hopt
  have hdu : dataURLToUse r = r.optimizedImg.dataURL := by
    simp [dataURLToUse, hopt]
  refine ⟨hdu, ?_, ?_⟩
  · intro bytes newObj hdec hsome hpng hembed
    obtain ⟨old, hold⟩ := Option.isSome_iff_exists.mp hsome
    have hres : patchOne env doc r = embedReplace doc r newObj := by
      simp [patchOne, hdu, hdec, hold, hpng, hembed]
    refine ⟨hres, ?_⟩
    rw [hres]
    simp [embedReplace, updateObjects]
  · intro bytes hdec hsome hpng hembed
    obtain ⟨old, hold⟩ := Option.isSome_iff_exists.mp hsome
    have hres : patchOne env doc r =
        manualReplace doc r bytes (strIncludes (dataURLToUse r) "image/jpeg") := by
      simp [patchOne, hdu, hdec, hold, hpng, hembed]
    rw [hres, hdu]
    simp [manualReplace, updateObjects]

/-- Witness for C9 on the concrete fixtures, covering both the embed
path and the manual fallback path for the never-optimized record. -/
theorem c9_unoptimized_reembed_witness :
    dataURLToUse testRep = testRep.optimizedImg.dataURL ∧
    (patchOne patchEnvEmbedOk testDoc testRep).objects testDoc.nextRef =
      some embeddedObj ∧
    (patchOne patchEnvNoEmbed testDoc testRep).objects testRep.xObjRef =
      some ⟨true, some testRep.width, some testRep.height, some 8, some "DeviceRGB",
            some (if strIncludes testRep.optimizedImg.dataURL "image/jpeg"
                  then "DCTDecode" else "FlateDecode"), "BYTES"⟩ :=
  ⟨(c9_unoptimized_reembed patchEnvEmbedOk testDoc testRep rfl).1,
   ((c9_unoptimized_reembed patchEnvEmbedOk testDoc testRep rfl).2.1 "BYTES" embeddedObj
      rfl (by rfl) (by decide) rfl).2,
   (c9_unoptimized_reembed patchEnvNoEmbed testDoc testRep rfl).2.2 "BYTES" rfl (by rfl)
     (by decide) rfl⟩
